import Mathlib

/-!
Verification of the review lifecycle and seller-rating aggregation engine of a
vehicle-parts marketplace.  The data model and the operations below are a
shallow embedding of the `Review` entity and the `ReviewService` class of the
source; timestamps become natural numbers, database rows become list entries,
and each awaited repository call becomes one primitive store action applied to
an explicit database state.
-/

/-- A reply attached to a review: `{ comment, createdAt }`. -/
structure Reply where
  comment : String
  createdAt : Nat
  deriving Repr, DecidableEq

/-- The `Review` entity.  The service records the reviewer as either a
buyer-profile identity (`buyerReviewer`) or a seller-profile identity
(`sellerReviewer`); `sellerId` is the foreign key to the reviewed seller's
profile.  Moderation fields `reported`, `reportReason`, `reporterId` are
nullable flat columns; `reply` is a nullable nested value. -/
structure Review where
  id : Nat
  sellerId : Nat
  buyerReviewer : Option Nat
  sellerReviewer : Option Nat
  rating : Int
  comment : String
  reply : Option Reply
  reported : Bool
  reportReason : Option String
  reporterId : Option Nat
  createdAt : Nat
  updatedAt : Nat
  deriving Repr, DecidableEq

/-- The `SellerProfile` entity, reduced to the fields the review engine
touches: its primary key `id`, the owning user's id `userId`, and the
denormalized review counter `numReviews`. -/
structure SellerProfile where
  id : Nat
  userId : Nat
  numReviews : Int
  deriving Repr, DecidableEq

/-- The `User` entity with its optional buyer and seller sub-profiles
(each represented by the profile's primary key). -/
structure User where
  id : Nat
  buyerProfile : Option Nat
  sellerProfile : Option Nat
  deriving Repr, DecidableEq

/-- The durable store: review rows, seller profiles, users, and the next
primary key the store will assign to an inserted review. -/
structure DB where
  reviews : List Review
  sellers : List SellerProfile
  users : List User
  nextReviewId : Nat
  deriving Repr, DecidableEq

/-- Error taxonomy of the engine; each constructor carries the message thrown
by the source code at that point. -/
inductive ServiceError where
  | validationError (msg : String)
  | notFoundError (msg : String)
  | authorizationError (msg : String)
  | conflictError (msg : String)
  deriving Repr, DecidableEq

/-- Input of `createReview` (the `CreateReviewDto`).  `sellerId` is the
reviewed seller's user id (the service resolves the profile by `userId`),
`reviewerId` the reviewing user's id. -/
structure CreateReviewDto where
  sellerId : Nat
  reviewerId : Nat
  rating : Int
  comment : String
  deriving Repr, DecidableEq

/-- One awaited repository call of the service.  Each action commits on its
own: the source issues them as separate statements with no enclosing
transaction. -/
inductive StoreAction where
  | saveReview (r : Review)
  | removeReview (id : Nat)
  | incNumReviews (sellerProfileId : Nat)
  | decNumReviews (sellerProfileId : Nat)
  deriving Repr, DecidableEq

/-- `reviewRepository.findOne({ where: { id } })`. -/
def findReviewById (db : DB) (id : Nat) : Option Review :=
  db.reviews.find? (fun r => r.id == id)

/-- `sellerRepository.findOne({ where: { userId } })`. -/
def findSellerByUserId (db : DB) (userId : Nat) : Option SellerProfile :=
  db.sellers.find? (fun s => s.userId == userId)

/-- `userRepository.findOne({ where: { id } })`. -/
def findUserById (db : DB) (id : Nat) : Option User :=
  db.users.find? (fun u => u.id == id)

/-- Effect of one repository call on the store.  `saveReview` updates the row
in place when the id already exists and inserts a fresh row otherwise;
`removeReview` deletes the row; the counter actions are the SQL
`numReviews + 1` / `numReviews - 1` update queries. -/
def applyAction (db : DB) : StoreAction → DB
  | .saveReview r =>
      if db.reviews.any (fun x => x.id == r.id) then
        { db with reviews := db.reviews.map (fun x => if x.id == r.id then r else x) }
      else
        { db with reviews := db.reviews ++ [r], nextReviewId := db.nextReviewId + 1 }
  | .removeReview i =>
      { db with reviews := db.reviews.filter (fun x => x.id ≠ i) }
  | .incNumReviews sid =>
      { db with sellers := db.sellers.map (fun s =>
          if s.id == sid then { s with numReviews := s.numReviews + 1 } else s) }
  | .decNumReviews sid =>
      { db with sellers := db.sellers.map (fun s =>
          if s.id == sid then { s with numReviews := s.numReviews - 1 } else s) }

/-- Run a sequence of store actions in order, each committing separately. -/
def runActions (db : DB) (acts : List StoreAction) : DB :=
  acts.foldl applyAction db

/-- The review row `createReview` builds before saving: the reviewer's
buyer profile is recorded when present (`if (reviewerUser.buyerProfile)`),
otherwise the seller profile (`else if (reviewerUser.sellerProfile)`). -/
def newReview (db : DB) (dto : CreateReviewDto) (now : Nat)
    (seller : SellerProfile) (reviewerUser : User) : Review :=
  { id := db.nextReviewId
    sellerId := seller.id
    buyerReviewer := reviewerUser.buyerProfile
    sellerReviewer :=
      if reviewerUser.buyerProfile.isSome then none
      else reviewerUser.sellerProfile
    rating := dto.rating
    comment := dto.comment
    reply := none
    reported := false
    reportReason := none
    reporterId := none
    createdAt := now
    updatedAt := now }

/-- `ReviewService.createReview`, up to its store writes: validates the
rating, resolves the seller profile by user id, resolves the reviewer user,
requires at least one sub-profile, builds the new review row (buyer profile
preferred as reviewer identity), and returns the two store actions the
service then awaits in order: the review insert and the counter increment. -/
def createReviewActions (db : DB) (dto : CreateReviewDto) (now : Nat) :
    Except ServiceError (List StoreAction × Review) :=
  if dto.rating < 1 ∨ dto.rating > 5 then
    .error (.validationError "Rating must be between 1 and 5")
  else
    match findSellerByUserId db dto.sellerId with
    | none => .error (.notFoundError "Seller not found")
    | some seller =>
      match findUserById db dto.reviewerId with
      | none => .error (.notFoundError "User not found")
      | some reviewerUser =>
        if reviewerUser.buyerProfile = none ∧ reviewerUser.sellerProfile = none then
          .error (.validationError
            "User must have either a buyer or seller profile to leave a review")
        else
          let review := newReview db dto now seller reviewerUser
          .ok ([.saveReview review, .incNumReviews seller.id], review)

/-- `ReviewService.createReview` with both store writes completed. -/
def createReview (db : DB) (dto : CreateReviewDto) (now : Nat) :
    Except ServiceError (DB × Review) :=
  match createReviewActions db dto now with
  | .error e => .error e
  | .ok (acts, r) => .ok (runActions db acts, r)

/-- The guard `review.xReviewer && review.xReviewer.id !== userId` of
`deleteReview`: a recorded reviewer identity exists and differs from the
caller. -/
def reviewerMismatch (who : Option Nat) (userId : Nat) : Prop :=
  match who with
  | some b => b ≠ userId
  | none => False

instance (who : Option Nat) (userId : Nat) :
    Decidable (reviewerMismatch who userId) := by
  unfold reviewerMismatch
  cases who <;> infer_instance

/-- `ReviewService.deleteReview`, up to its store writes: resolves the
review, authorizes the caller against whichever reviewer identity is set,
and returns the two store actions the service then awaits in order: the row
removal and the counter decrement. -/
def deleteReviewActions (db : DB) (reviewId : Nat) (userId : Nat) :
    Except ServiceError (List StoreAction) :=
  match findReviewById db reviewId with
  | none => .error (.notFoundError "Review not found")
  | some review =>
    if reviewerMismatch review.buyerReviewer userId ∨
       reviewerMismatch review.sellerReviewer userId then
      .error (.authorizationError "Only the reviewer can delete this review")
    else
      .ok [.removeReview reviewId, .decNumReviews review.sellerId]

/-- `ReviewService.deleteReview` with both store writes completed. -/
def deleteReview (db : DB) (reviewId : Nat) (userId : Nat) :
    Except ServiceError DB :=
  match deleteReviewActions db reviewId userId with
  | .error e => .error e
  | .ok acts => .ok (runActions db acts)

/-- Result of `getSellerStats`. -/
structure SellerStats where
  averageRating : Rat
  totalReviews : Nat
  deriving Repr, DecidableEq

/-- `ReviewService.getSellerStats`: aggregates the seller's stored review
rows with `COUNT` and `AVG(rating)`; SQL yields `NULL` for the average of no
rows, which `Number(...) || 0` turns into `0`. -/
def getSellerStats (db : DB) (sellerId : Nat) : SellerStats :=
  let rows := db.reviews.filter (fun r => r.sellerId == sellerId)
  { averageRating :=
      if rows.length = 0 then 0
      else ((rows.map Review.rating).sum : Rat) / (rows.length : Rat)
    totalReviews := rows.length }

/-- Descending order on `createdAt`, the `orderBy('review.createdAt', 'DESC')`
of the source. -/
def byCreatedAtDesc (a b : Review) : Prop :=
  b.createdAt ≤ a.createdAt

instance : DecidableRel byCreatedAtDesc :=
  fun a b => Nat.decLe b.createdAt a.createdAt

instance : IsTotal Review byCreatedAtDesc :=
  ⟨fun a b => Nat.le_total b.createdAt a.createdAt⟩

instance : IsTrans Review byCreatedAtDesc :=
  ⟨fun _ _ _ hab hbc => Nat.le_trans hbc hab⟩

/-- Result of `getSellerReviews`. -/
structure PagedReviews where
  reviews : List Review
  total : Nat
  hasMore : Bool
  deriving Repr, DecidableEq

/-- `ReviewService.getSellerReviews`: filters the seller's reviews, orders by
`createdAt` descending, skips `(page - 1) * limit` rows, takes `limit` rows,
and reports the pre-pagination total with `hasMore = total > page * limit`.
The source never throws here; the `Except` result mirrors its (absent) error
paths. -/
def getSellerReviews (db : DB) (sellerId : Nat) (page : Int := 1)
    (limit : Int := 5) : Except ServiceError PagedReviews :=
  let filtered := db.reviews.filter (fun r => r.sellerId == sellerId)
  let rows := List.insertionSort byCreatedAtDesc filtered
  let total := filtered.length
  .ok { reviews := (rows.drop ((page - 1) * limit).toNat).take limit.toNat
        total := total
        hasMore := decide ((total : Int) > page * limit) }

/-- The row `addReplyToReview` saves: the review with
`reply = { comment, createdAt: now }` set (the update-date column refreshes
on save). -/
def repliedReview (review : Review) (comment : String) (now : Nat) : Review :=
  { review with
    reply := some { comment := comment, createdAt := now }
    updatedAt := now }

/-- The row `reportReview` saves: `reported = true`, `reportReason = reason`,
`reporterId = reporterId` (the update-date column refreshes on save). -/
def reportedReview (review : Review) (reporterId : Nat) (reason : String)
    (now : Nat) : Review :=
  { review with
    reported := true
    reportReason := some reason
    reporterId := some reporterId
    updatedAt := now }

/-- `ReviewService.addReplyToReview`: resolves the review, authorizes the
caller as the reviewed seller, rejects when a reply already exists, then
saves the review with the new reply (the update-date column refreshes on
save). -/
def addReplyToReview (db : DB) (reviewId : Nat) (sellerId : Nat)
    (comment : String) (now : Nat) : Except ServiceError (DB × Review) :=
  match findReviewById db reviewId with
  | none => .error (.notFoundError "Review not found")
  | some review =>
    if review.sellerId ≠ sellerId then
      .error (.authorizationError "Only the seller can reply to this review")
    else if review.reply.isSome then
      .error (.conflictError "Review already has a reply")
    else
      let updated := repliedReview review comment now
      .ok (applyAction db (.saveReview updated), updated)

/-- `ReviewService.reportReview`: resolves the review, then unconditionally
sets `reported = true`, `reportReason = reason`, `reporterId = reporterId`
and saves (the update-date column refreshes on save). -/
def reportReview (db : DB) (reviewId : Nat) (reporterId : Nat)
    (reason : String) (now : Nat) : Except ServiceError (DB × Review) :=
  match findReviewById db reviewId with
  | none => .error (.notFoundError "Review not found")
  | some review =>
    let updated := reportedReview review reporterId reason now
    .ok (applyAction db (.saveReview updated), updated)

/-- Number of stored review rows referencing a seller profile. -/
def countSellerReviews (db : DB) (sellerProfileId : Nat) : Nat :=
  (db.reviews.filter (fun r => r.sellerId == sellerProfileId)).length

/-- The aggregate invariant of the spec: every seller's `numReviews` counter
equals the count of stored (non-deleted) reviews referencing that seller. -/
def counterInvariant (db : DB) : Prop :=
  ∀ s ∈ db.sellers, s.numReviews = (countSellerReviews db s.id : Int)

instance (db : DB) : Decidable (counterInvariant db) := by
  unfold counterInvariant
  infer_instance

/-- Store well-formedness: review primary keys are pairwise distinct and
below the next key the store will assign. -/
def DB.wf (db : DB) : Prop :=
  (db.reviews.map Review.id).Nodup ∧ ∀ r ∈ db.reviews, r.id < db.nextReviewId

instance (db : DB) : Decidable (DB.wf db) := by
  unfold DB.wf
  infer_instance

/-! ### A concrete sample world used by the closed witness theorems -/

/-- Sample seller profile: profile id 10, owned by user 7, counter 2. -/
def wSeller : SellerProfile := { id := 10, userId := 7, numReviews := 2 }

/-- Sample reviewing user holding only a buyer profile (id 30). -/
def wBuyerUser : User := { id := 3, buyerProfile := some 30, sellerProfile := none }

/-- Sample reviewing user holding only a seller profile (id 40). -/
def wSellerUser : User := { id := 4, buyerProfile := none, sellerProfile := some 40 }

/-- Sample stored review without a reply, authored by buyer profile 30. -/
def wReview1 : Review :=
  { id := 1, sellerId := 10, buyerReviewer := some 30, sellerReviewer := none
    rating := 4, comment := "good", reply := none, reported := false
    reportReason := none, reporterId := none, createdAt := 11, updatedAt := 11 }

/-- Sample stored review that already carries a reply. -/
def wReview2 : Review :=
  { id := 2, sellerId := 10, buyerReviewer := none, sellerReviewer := some 40
    rating := 3, comment := "ok", reply := some { comment := "ty", createdAt := 12 }
    reported := false, reportReason := none, reporterId := none
    createdAt := 12, updatedAt := 12 }

/-- Sample database: one seller with two reviews, two candidate reviewers. -/
def wDB : DB :=
  { reviews := [wReview1, wReview2], sellers := [wSeller]
    users := [wBuyerUser, wSellerUser], nextReviewId := 3 }

/-- Sample creation request: user 3 reviews seller-user 7 with rating 5. -/
def wDto : CreateReviewDto :=
  { sellerId := 7, reviewerId := 3, rating := 5, comment := "great" }

/-- The sample review after being reported by user 77 for "spam" at time 50. -/
def wReview1rep : Review :=
  { id := 1, sellerId := 10, buyerReviewer := some 30, sellerReviewer := none
    rating := 4, comment := "good", reply := none, reported := true
    reportReason := some "spam", reporterId := some 77
    createdAt := 11, updatedAt := 50 }

/-- The sample database after that report is saved. -/
def wDBrep : DB :=
  { reviews := [wReview1rep, wReview2], sellers := [wSeller]
    users := [wBuyerUser, wSellerUser], nextReviewId := 3 }

/-- The sample review after seller 10 replies "thanks" at time 60. -/
def wReview1replied : Review :=
  { id := 1, sellerId := 10, buyerReviewer := some 30, sellerReviewer := none
    rating := 4, comment := "good"
    reply := some { comment := "thanks", createdAt := 60 }
    reported := false, reportReason := none, reporterId := none
    createdAt := 11, updatedAt := 60 }

/-- The sample database after that reply is saved. -/
def wDBreplied : DB :=
  { reviews := [wReview1replied, wReview2], sellers := [wSeller]
    users := [wBuyerUser, wSellerUser], nextReviewId := 3 }

/-- The review row the sample creation request inserts at time 100. -/
def wNewReview : Review :=
  { id := 3, sellerId := 10, buyerReviewer := some 30, sellerReviewer := none
    rating := 5, comment := "great", reply := none, reported := false
    reportReason := none, reporterId := none, createdAt := 100, updatedAt := 100 }

/-- The sample database after that creation fully commits (row inserted and
counter incremented). -/
def wDBcreated : DB :=
  { reviews := [wReview1, wReview2, wNewReview]
    sellers := [{ id := 10, userId := 7, numReviews := 3 }]
    users := [wBuyerUser, wSellerUser], nextReviewId := 4 }

/-! ### Helper lemmas -/

theorem createReview_of_actions_error {db : DB} {dto : CreateReviewDto}
    {now : Nat} {e : ServiceError}
    (h : createReviewActions db dto now = .error e) :
    createReview db dto now = .error e := by
  unfold createReview
  rw [h]

theorem createReview_of_actions_ok {db : DB} {dto : CreateReviewDto}
    {now : Nat} {acts : List StoreAction} {r : Review}
    (h : createReviewActions db dto now = .ok (acts, r)) :
    createReview db dto now = .ok (runActions db acts, r) := by
  unfold createReview
  rw [h]

theorem createReviewActions_ok_eq (db : DB) (dto : CreateReviewDto) (now : Nat)
    {s : SellerProfile} {u : User}
    (hs : findSellerByUserId db dto.sellerId = some s)
    (hu : findUserById db dto.reviewerId = some u)
    (hr : ¬(dto.rating < 1 ∨ dto.rating > 5))
    (hprof : ¬(u.buyerProfile = none ∧ u.sellerProfile = none)) :
    createReviewActions db dto now =
      .ok ([.saveReview (newReview db dto now s u), .incNumReviews s.id],
           newReview db dto now s u) := by
  unfold createReviewActions
  rw [if_neg hr, hs, hu]
  dsimp only
  rw [if_neg hprof]

theorem createReviewActions_ok_inv {db : DB} {dto : CreateReviewDto} {now : Nat}
    {acts : List StoreAction} {r : Review}
    (h : createReviewActions db dto now = .ok (acts, r)) :
    ∃ s u, findSellerByUserId db dto.sellerId = some s ∧
      findUserById db dto.reviewerId = some u ∧
      ¬(dto.rating < 1 ∨ dto.rating > 5) ∧
      ¬(u.buyerProfile = none ∧ u.sellerProfile = none) ∧
      acts = [.saveReview (newReview db dto now s u), .incNumReviews s.id] ∧
      r = newReview db dto now s u := by
  unfold createReviewActions at h
  split at h
  · exact absurd h (by simp)
  rename_i hr
  split at h
  · exact absurd h (by simp)
  rename_i s hs
  split at h
  · exact absurd h (by simp)
  rename_i u hu
  split at h
  · exact absurd h (by simp)
  rename_i hprof
  simp only [Except.ok.injEq, Prod.mk.injEq] at h
  exact ⟨s, u, hs, hu, hr, hprof, h.1.symm, h.2.symm⟩

theorem findReviewById_some {db : DB} {rid : Nat} {rev : Review}
    (h : findReviewById db rid = some rev) : rev ∈ db.reviews ∧ rev.id = rid := by
  unfold findReviewById at h
  exact ⟨List.mem_of_find?_eq_some h, by simpa using List.find?_some h⟩

theorem mem_reviews_saveReview (db : DB) (r : Review) :
    r ∈ (applyAction db (.saveReview r)).reviews := by
  simp only [applyAction]
  split
  · rename_i hany
    rw [List.any_eq_true] at hany
    obtain ⟨x, hx, hid⟩ := hany
    exact List.mem_map.mpr ⟨x, hx, by rw [if_pos hid]⟩
  · simp

theorem mem_reviews_saveReview_other (db : DB) (r x : Review)
    (hx : x ∈ db.reviews) (hne : x.id ≠ r.id) :
    x ∈ (applyAction db (.saveReview r)).reviews := by
  simp only [applyAction]
  split
  · exact List.mem_map.mpr ⟨x, hx, if_neg (by simp [hne])⟩
  · exact List.mem_append_left _ hx

theorem reviews_incNumReviews (db : DB) (sid : Nat) :
    (applyAction db (.incNumReviews sid)).reviews = db.reviews := rfl

/-- Claim C2: assuming the seller and reviewer preconditions hold,
`createReview` succeeds exactly when the rating lies in `[1, 5]`, and a
rating outside `[1, 5]` yields the rating `ValidationError`. -/
theorem createReview_succeeds_iff_rating_in_range
    (db : DB) (dto : CreateReviewDto) (now : Nat) (s : SellerProfile) (u : User)
    (hs : findSellerByUserId db dto.sellerId = some s)
    (hu : findUserById db dto.reviewerId = some u)
    (hp : u.buyerProfile.isSome ∨ u.sellerProfile.isSome) :
    ((∃ out, createReview db dto now = .ok out) ↔
        1 ≤ dto.rating ∧ dto.rating ≤ 5) ∧
    (dto.rating < 1 ∨ 5 < dto.rating →
      createReview db dto now =
        .error (.validationError "Rating must be between 1 and 5")) := by
  have hprof : ¬(u.buyerProfile = none ∧ u.sellerProfile = none) := by
    rintro ⟨h1, h2⟩
    rcases hp with h | h <;> simp [h1, h2] at h
  by_cases hr : dto.rating < 1 ∨ dto.rating > 5
  · have herr : createReview db dto now =
        .error (.validationError "Rating must be between 1 and 5") :=
      createReview_of_actions_error (by
        unfold createReviewActions
        rw [if_pos hr])
    refine ⟨⟨fun hex => ?_, fun hin => absurd hr (by omega)⟩, fun _ => herr⟩
    obtain ⟨out, hout⟩ := hex
    rw [herr] at hout
    cases hout
  · have hok := createReview_of_actions_ok (createReviewActions_ok_eq db dto now hs hu hr hprof)
    refine ⟨⟨fun _ => by omega, fun _ => ⟨_, hok⟩⟩, fun hcon => absurd hcon (by omega)⟩

/-- Closed instance of claim C2 at a concrete out-of-range rating. -/
theorem createReview_succeeds_iff_rating_in_range_witness :
    createReview wDB { sellerId := 7, reviewerId := 3, rating := 6, comment := "x" } 100 =
      .error (.validationError "Rating must be between 1 and 5") :=
  (createReview_succeeds_iff_rating_in_range wDB
      { sellerId := 7, reviewerId := 3, rating := 6, comment := "x" } 100
      wSeller wBuyerUser (by decide) (by decide) (by decide)).2 (by decide)

/-- Claim C6: a successful `createReview` persists a review recording the
reviewer's buyer-profile identity when present, otherwise the
seller-profile identity, and fails with the profile `ValidationError` when
the reviewer has neither profile. -/
theorem createReview_reviewer_identity
    (db : DB) (dto : CreateReviewDto) (now : Nat) (s : SellerProfile) (u : User)
    (hs : findSellerByUserId db dto.sellerId = some s)
    (hu : findUserById db dto.reviewerId = some u)
    (hr1 : 1 ≤ dto.rating) (hr5 : dto.rating ≤ 5) :
    (∀ b, u.buyerProfile = some b →
      ∃ db2 r, createReview db dto now = .ok (db2, r) ∧
        r.buyerReviewer = some b ∧ r.sellerReviewer = none ∧ r ∈ db2.reviews) ∧
    (∀ sp, u.buyerProfile = none → u.sellerProfile = some sp →
      ∃ db2 r, createReview db dto now = .ok (db2, r) ∧
        r.buyerReviewer = none ∧ r.sellerReviewer = some sp ∧ r ∈ db2.reviews) ∧
    (u.buyerProfile = none → u.sellerProfile = none →
      createReview db dto now = .error (.validationError
        "User must have either a buyer or seller profile to leave a review")) := by
  have hr : ¬(dto.rating < 1 ∨ dto.rating > 5) := by omega
  refine ⟨fun b hb => ?_, fun sp hb hsp => ?_, fun hb hsp => ?_⟩
  · have hok := createReview_of_actions_ok
      (createReviewActions_ok_eq db dto now hs hu hr (by simp [hb]))
    refine ⟨_, _, hok, by simp [newReview, hb], by simp [newReview, hb], ?_⟩
    exact mem_reviews_saveReview _ _
  · have hok := createReview_of_actions_ok
      (createReviewActions_ok_eq db dto now hs hu hr (by simp [hsp]))
    refine ⟨_, _, hok, by simp [newReview, hb], by simp [newReview, hb, hsp], ?_⟩
    exact mem_reviews_saveReview _ _
  · refine createReview_of_actions_error ?_
    unfold createReviewActions
    rw [if_neg hr, hs, hu]
    dsimp only
    rw [if_pos ⟨hb, hsp⟩]

/-- Closed instance of claim C6: the sample buyer-profiled reviewer is
recorded through the buyer identity. -/
theorem createReview_reviewer_identity_witness :
    (createReview wDB wDto 100).toOption.map (fun p => p.2.buyerReviewer) =
      some (some 30) := by
  obtain ⟨db2, r, hok, hb, -, -⟩ :=
    (createReview_reviewer_identity wDB wDto 100 wSeller wBuyerUser
      (by decide) (by decide) (by decide) (by decide)).1 30 (by decide)
  rw [hok]
  exact congrArg some hb

theorem find?_map_update (l : List Review) (r : Review) (rid : Nat)
    (hid : r.id = rid)
    (hex : l.find? (fun x => x.id == rid) ≠ none) :
    (l.map (fun x => if x.id == r.id then r else x)).find?
      (fun x => x.id == rid) = some r := by
  induction l with
  | nil => simp at hex
  | cons a t ih =>
    by_cases ha : a.id = r.id
    · rw [List.map_cons, if_pos (by simp [ha]),
        List.find?_cons_of_pos _ (by simp [hid])]
    · rw [List.map_cons, if_neg (by simp [ha]),
        List.find?_cons_of_neg _ (by simpa [← hid] using ha)]
      refine ih ?_
      rwa [List.find?_cons_of_neg _ (by simpa [← hid] using ha)] at hex

theorem findReviewById_saveReview {db : DB} {rid : Nat} {rev : Review}
    (r : Review) (hfind : findReviewById db rid = some rev) (hid : r.id = rid) :
    findReviewById (applyAction db (.saveReview r)) rid = some r := by
  obtain ⟨hmem, hrid⟩ := findReviewById_some hfind
  simp only [applyAction]
  rw [if_pos (List.any_eq_true.mpr ⟨rev, hmem, by simp [hrid, hid]⟩)]
  unfold findReviewById at hfind ⊢
  exact find?_map_update db.reviews r rid hid (by rw [hfind]; simp)

theorem reportReview_eq {db : DB} {rid : Nat} {rev : Review}
    (hfind : findReviewById db rid = some rev) (p : Nat) (reason : String)
    (now : Nat) :
    reportReview db rid p reason now =
      .ok (applyAction db (.saveReview (reportedReview rev p reason now)),
           reportedReview rev p reason now) := by
  unfold reportReview
  rw [hfind]

theorem reportReview_ok_inv {db : DB} {rid p : Nat} {reason : String}
    {now : Nat} {db2 : DB} {r2 : Review}
    (h : reportReview db rid p reason now = .ok (db2, r2)) :
    ∃ rev, findReviewById db rid = some rev ∧
      r2 = reportedReview rev p reason now ∧
      db2 = applyAction db (.saveReview r2) := by
  unfold reportReview at h
  split at h
  · cases h
  rename_i rev hfind
  simp only [Except.ok.injEq, Prod.mk.injEq] at h
  exact ⟨rev, hfind, h.2.symm, by rw [← h.1, h.2]⟩

theorem addReplyToReview_ok_inv {db : DB} {rid sid : Nat} {c : String}
    {now : Nat} {db2 : DB} {r2 : Review}
    (h : addReplyToReview db rid sid c now = .ok (db2, r2)) :
    ∃ rev, findReviewById db rid = some rev ∧ rev.sellerId = sid ∧
      rev.reply = none ∧ r2 = repliedReview rev c now ∧
      db2 = applyAction db (.saveReview r2) := by
  unfold addReplyToReview at h
  split at h
  · cases h
  rename_i rev hfind
  split at h
  · cases h
  rename_i hsid
  split at h
  · cases h
  rename_i hrep
  simp only [Except.ok.injEq, Prod.mk.injEq] at h
  refine ⟨rev, hfind, not_not.mp hsid, ?_, h.2.symm, by rw [← h.1, h.2]⟩
  simpa using hrep

/-- Claim C9: on an existing review, `reportReview` always succeeds, sets
`reported`, `reportReason` and `reporterId`, and a second report overwrites
the first: the stored row finally carries only the second reason and
reporter. -/
theorem reportReview_last_report_wins
    (db : DB) (rid : Nat) (rev : Review)
    (hfind : findReviewById db rid = some rev)
    (p1 p2 : Nat) (reason1 reason2 : String) (t1 t2 : Nat) :
    ∃ db1 r1 db2 r2,
      reportReview db rid p1 reason1 t1 = .ok (db1, r1) ∧
      r1.reported = true ∧ r1.reportReason = some reason1 ∧
      r1.reporterId = some p1 ∧ findReviewById db1 rid = some r1 ∧
      reportReview db1 rid p2 reason2 t2 = .ok (db2, r2) ∧
      r2.reported = true ∧ r2.reportReason = some reason2 ∧
      r2.reporterId = some p2 ∧ findReviewById db2 rid = some r2 := by
  obtain ⟨-, hrid⟩ := findReviewById_some hfind
  have hfind1 : findReviewById
      (applyAction db (.saveReview (reportedReview rev p1 reason1 t1))) rid =
      some (reportedReview rev p1 reason1 t1) :=
    findReviewById_saveReview _ hfind hrid
  refine ⟨_, _, _, _, reportReview_eq hfind p1 reason1 t1, rfl, rfl, rfl, hfind1,
    reportReview_eq hfind1 p2 reason2 t2, rfl, rfl, rfl, ?_⟩
  exact findReviewById_saveReview _ hfind1 hrid

/-- Closed instance of claim C9: reporting the sample review twice leaves
only the second reason in the stored row. -/
theorem reportReview_last_report_wins_witness :
    findReviewById wDBrep 1 = some wReview1rep := by
  obtain ⟨db1, r1, db2, r2, hok, -, -, -, hf1, -⟩ :=
    reportReview_last_report_wins wDB 1 wReview1 (by decide) 77 99 "spam" "fake" 50 60
  have heval : reportReview wDB 1 77 "spam" 50 = .ok (wDBrep, wReview1rep) := by
    rfl
  rw [heval] at hok
  injection hok with hok
  injection hok with hdb hr
  rw [hdb, hr]
  exact hf1

/-- Claim C10: `addReplyToReview` changes only the reply field (besides the
system-managed update date), `reportReview` changes only the moderation
fields (besides the update date); identity, seller, reviewer, rating,
comment and creation date survive both, the reply survives a report, the
moderation fields survive a reply, and every other stored review is left in
place. -/
theorem addReply_report_frame
    (db : DB) (rid : Nat) (rev : Review)
    (hfind : findReviewById db rid = some rev) :
    (∀ sid c now db2 r2, addReplyToReview db rid sid c now = .ok (db2, r2) →
      r2.id = rev.id ∧ r2.sellerId = rev.sellerId ∧
      r2.buyerReviewer = rev.buyerReviewer ∧
      r2.sellerReviewer = rev.sellerReviewer ∧
      r2.rating = rev.rating ∧ r2.comment = rev.comment ∧
      r2.createdAt = rev.createdAt ∧ r2.reported = rev.reported ∧
      r2.reportReason = rev.reportReason ∧ r2.reporterId = rev.reporterId ∧
      findReviewById db2 rid = some r2 ∧
      ∀ x ∈ db.reviews, x.id ≠ rid → x ∈ db2.reviews) ∧
    (∀ p reason now db2 r2, reportReview db rid p reason now = .ok (db2, r2) →
      r2.id = rev.id ∧ r2.sellerId = rev.sellerId ∧
      r2.buyerReviewer = rev.buyerReviewer ∧
      r2.sellerReviewer = rev.sellerReviewer ∧
      r2.rating = rev.rating ∧ r2.comment = rev.comment ∧
      r2.createdAt = rev.createdAt ∧ r2.reply = rev.reply ∧
      findReviewById db2 rid = some r2 ∧
      ∀ x ∈ db.reviews, x.id ≠ rid → x ∈ db2.reviews) := by
  obtain ⟨-, hrid⟩ := findReviewById_some hfind
  constructor
  · intro sid c now db2 r2 h
    obtain ⟨rev2, hfind2, hsid, hrep, hr2, hdb2⟩ := addReplyToReview_ok_inv h
    rw [hfind] at hfind2
    injection hfind2 with hrev
    subst hrev
    subst hr2
    subst hdb2
    refine ⟨rfl, rfl, rfl, rfl, rfl, rfl, rfl, rfl, rfl, rfl, ?_, ?_⟩
    · exact findReviewById_saveReview _ hfind hrid
    · intro x hx hne
      refine mem_reviews_saveReview_other _ _ _ hx ?_
      show x.id ≠ rev.id
      rw [hrid]
      exact hne
  · intro p reason now db2 r2 h
    obtain ⟨rev2, hfind2, hr2, hdb2⟩ := reportReview_ok_inv h
    rw [hfind] at hfind2
    injection hfind2 with hrev
    subst hrev
    subst hr2
    subst hdb2
    refine ⟨rfl, rfl, rfl, rfl, rfl, rfl, rfl, rfl, ?_, ?_⟩
    · exact findReviewById_saveReview _ hfind hrid
    · intro x hx hne
      refine mem_reviews_saveReview_other _ _ _ hx ?_
      show x.id ≠ rev.id
      rw [hrid]
      exact hne

/-- Closed instance of claim C10: replying to the sample review keeps its
rating and leaves the other stored review in place. -/
theorem addReply_report_frame_witness :
    wReview1replied.rating = wReview1.rating ∧
    wReview2 ∈ wDBreplied.reviews := by
  have h := (addReply_report_frame wDB 1 wReview1 (by rfl)).1
    10 "thanks" 60 wDBreplied wReview1replied (by rfl)
  obtain ⟨-, -, -, -, hrat, -, -, -, -, -, -, hmem⟩ := h
  exact ⟨hrat, hmem wReview2 (by decide) (by decide)⟩

/-- Claim C4 counterexample: the sample review 2 already has a reply, yet a
non-seller caller gets an `AuthorizationError`, not the claimed
`ConflictError`. -/
theorem addReply_conflict_regardless_of_caller_cex :
    findReviewById wDB 2 = some wReview2 ∧ wReview2.reply.isSome = true ∧
    addReplyToReview wDB 2 999 "another" 70 =
      .error (.authorizationError "Only the seller can reply to this review") :=
  ⟨rfl, rfl, rfl⟩

/-- Claim C4 (amended): a non-null reply is never overwritten.
`addReplyToReview` on an already-replied review always fails — with
`ConflictError` when the caller is the reviewed seller, with
`AuthorizationError` otherwise — and never returns a state; a successful
reply implies the reply was previously null; `reportReview` never changes
the reply field. -/
theorem reply_never_overwritten
    (db : DB) (rid : Nat) (rev : Review)
    (hfind : findReviewById db rid = some rev) :
    (∀ c now, rev.reply.isSome →
      addReplyToReview db rid rev.sellerId c now =
        .error (.conflictError "Review already has a reply")) ∧
    (∀ sid c now db2 r2, rev.reply.isSome →
      addReplyToReview db rid sid c now ≠ .ok (db2, r2)) ∧
    (∀ sid c now db2 r2, addReplyToReview db rid sid c now = .ok (db2, r2) →
      rev.reply = none) ∧
    (∀ p reason now db2 r2, reportReview db rid p reason now = .ok (db2, r2) →
      r2.reply = rev.reply) := by
  refine ⟨fun c now hrep => ?_, fun sid c now db2 r2 hrep h => ?_,
    fun sid c now db2 r2 h => ?_, fun p reason now db2 r2 h => ?_⟩
  · unfold addReplyToReview
    rw [hfind]
    dsimp only
    rw [if_neg (by simp), if_pos hrep]
  · obtain ⟨rev2, hfind2, -, hnone, -, -⟩ := addReplyToReview_ok_inv h
    rw [hfind] at hfind2
    injection hfind2 with hrev
    rw [← hrev] at hnone
    rw [hnone] at hrep
    cases hrep
  · obtain ⟨rev2, hfind2, -, hnone, -, -⟩ := addReplyToReview_ok_inv h
    rw [hfind] at hfind2
    injection hfind2 with hrev
    rw [← hrev] at hnone
    exact hnone
  · obtain ⟨rev2, hfind2, hr2, -⟩ := reportReview_ok_inv h
    rw [hfind] at hfind2
    injection hfind2 with hrev
    rw [hr2, ← hrev]
    rfl

/-- Closed instance of the amended claim C4: even the reviewed seller gets
`ConflictError` on the already-replied sample review. -/
theorem reply_never_overwritten_witness :
    addReplyToReview wDB 2 wReview2.sellerId "again" 70 =
      .error (.conflictError "Review already has a reply") :=
  (reply_never_overwritten wDB 2 wReview2 (by rfl)).1 "again" 70 (by rfl)

theorem deleteReview_of_actions_error {db : DB} {rid uid : Nat}
    {e : ServiceError} (h : deleteReviewActions db rid uid = .error e) :
    deleteReview db rid uid = .error e := by
  unfold deleteReview
  rw [h]

theorem deleteReview_of_actions_ok {db : DB} {rid uid : Nat}
    {acts : List StoreAction} (h : deleteReviewActions db rid uid = .ok acts) :
    deleteReview db rid uid = .ok (runActions db acts) := by
  unfold deleteReview
  rw [h]

/-- Claim C3: `deleteReview` fails with `AuthorizationError` unless the
caller matches the review's recorded reviewer identity (whichever of the two
reviewer roles is set); on a match the review is removed and the other
stored reviews survive. -/
theorem deleteReview_requires_reviewer_identity
    (db : DB) (rid uid : Nat) (rev : Review) (b : Nat)
    (hfind : findReviewById db rid = some rev)
    (hone : (rev.buyerReviewer = some b ∧ rev.sellerReviewer = none) ∨
            (rev.buyerReviewer = none ∧ rev.sellerReviewer = some b)) :
    (uid ≠ b → deleteReview db rid uid =
      .error (.authorizationError "Only the reviewer can delete this review")) ∧
    (uid = b → ∃ db2, deleteReview db rid uid = .ok db2 ∧
      findReviewById db2 rid = none ∧
      ∀ x ∈ db.reviews, x.id ≠ rid → x ∈ db2.reviews) := by
  have hmis : (reviewerMismatch rev.buyerReviewer uid ∨
      reviewerMismatch rev.sellerReviewer uid) ↔ uid ≠ b := by
    rcases hone with ⟨hb, hsn⟩ | ⟨hbn, hs⟩
    · rw [hb, hsn]
      unfold reviewerMismatch
      constructor
      · rintro (h | h)
        · exact fun hEq => h hEq.symm
        · cases h
      · exact fun h => Or.inl (fun hEq => h hEq.symm)
    · rw [hbn, hs]
      unfold reviewerMismatch
      constructor
      · rintro (h | h)
        · cases h
        · exact fun hEq => h hEq.symm
      · exact fun h => Or.inr (fun hEq => h hEq.symm)
  constructor
  · intro hne
    refine deleteReview_of_actions_error ?_
    unfold deleteReviewActions
    rw [hfind]
    dsimp only
    rw [if_pos (hmis.mpr hne)]
  · intro hEq
    have hok : deleteReviewActions db rid uid =
        .ok [.removeReview rid, .decNumReviews rev.sellerId] := by
      unfold deleteReviewActions
      rw [hfind]
      dsimp only
      rw [if_neg (fun hcon => (hmis.mp hcon) hEq)]
    refine ⟨_, deleteReview_of_actions_ok hok, ?_, ?_⟩
    · show (applyAction (applyAction db (.removeReview rid))
        (.decNumReviews rev.sellerId)).reviews.find? (fun r => r.id == rid) = none
      simp only [applyAction]
      rw [List.find?_eq_none]
      intro x hx
      have := (List.mem_filter.mp hx).2
      simp only [decide_not, Bool.not_eq_true', decide_eq_false_iff_not] at this
      simpa using this
    · intro x hx hne
      show x ∈ (applyAction (applyAction db (.removeReview rid))
        (.decNumReviews rev.sellerId)).reviews
      simp only [applyAction]
      exact List.mem_filter.mpr ⟨hx, by simpa using hne⟩

/-- Closed instance of claim C3: a stranger may not delete the sample
review authored by buyer profile 30. -/
theorem deleteReview_requires_reviewer_identity_witness :
    deleteReview wDB 1 999 =
      .error (.authorizationError "Only the reviewer can delete this review") :=
  (deleteReview_requires_reviewer_identity wDB 1 999 wReview1 30 (by rfl)
    (Or.inl ⟨rfl, rfl⟩)).1 (by decide)

/-- Claim C5: `getSellerStats` reports the row count of the seller's stored
reviews and the exact mean of their ratings (zero for a seller with no
reviews), and its result depends only on the stored review rows — never on
the `numReviews` counter, which can be changed arbitrarily without
affecting the statistics. -/
theorem getSellerStats_aggregates_rows (db dbAlt : DB) (sid : Nat) :
    (getSellerStats db sid).totalReviews = countSellerReviews db sid ∧
    (countSellerReviews db sid = 0 →
      (getSellerStats db sid).averageRating = 0) ∧
    (0 < countSellerReviews db sid →
      (getSellerStats db sid).averageRating =
        (((db.reviews.filter (fun r => r.sellerId == sid)).map
          Review.rating).sum : Rat) / (countSellerReviews db sid : Rat)) ∧
    (db.reviews = dbAlt.reviews →
      getSellerStats db sid = getSellerStats dbAlt sid) := by
  refine ⟨rfl, fun h0 => ?_, fun hpos => ?_, fun hrows => ?_⟩
  · unfold getSellerStats
    unfold countSellerReviews at h0
    dsimp only
    rw [if_pos h0]
  · unfold getSellerStats
    unfold countSellerReviews at hpos ⊢
    dsimp only
    rw [if_neg (by omega)]
  · unfold getSellerStats
    rw [hrows]

/-- Closed instance of claim C5: the sample seller's average is the exact
rational mean of the stored ratings. -/
theorem getSellerStats_aggregates_rows_witness :
    (getSellerStats wDB 10).averageRating =
      (((wDB.reviews.filter (fun r => r.sellerId == 10)).map
        Review.rating).sum : Rat) / (countSellerReviews wDB 10 : Rat) :=
  (getSellerStats_aggregates_rows wDB wDB 10).2.2.1 (by decide)

/-- Claim C7 counterexample: with non-positive page and limit (both 0) the
operation returns a result instead of rejecting with `ValidationError`. -/
theorem getSellerReviews_rejects_nonpositive_cex :
    getSellerReviews wDB 10 0 0 =
      .ok { reviews := [], total := 2, hasMore := true } := rfl

/-- Claim C7 (amended): `getSellerReviews` performs no validation of page or
limit; whenever the computed offset and the limit are non-negative
(including the non-positive inputs page = 0 or limit = 0) it returns an
ordinary page — the slice of the sorted rows at offset `(page-1)*limit` of
width `limit` with the total row count — and never a `ValidationError`. -/
theorem getSellerReviews_no_validation
    (db : DB) (sid : Nat) (page limit : Int)
    (_hoff : 0 ≤ (page - 1) * limit) (_hlim : 0 ≤ limit) :
    ∃ res, getSellerReviews db sid page limit = .ok res ∧
      res.total = countSellerReviews db sid ∧
      res.reviews = ((List.insertionSort byCreatedAtDesc
        (db.reviews.filter (fun r => r.sellerId == sid))).drop
          ((page - 1) * limit).toNat).take limit.toNat :=
  ⟨_, rfl, rfl, rfl⟩

/-- Closed instance of the amended claim C7: limit 0 is accepted and the
total is still reported. -/
theorem getSellerReviews_no_validation_witness :
    (getSellerReviews wDB 10 1 0).toOption.map PagedReviews.total = some 2 := by
  obtain ⟨res, hok, htot, -⟩ :=
    getSellerReviews_no_validation wDB 10 1 0 (by decide) (by decide)
  rw [hok]
  show some res.total = some 2
  rw [htot]
  rfl

/-- Claim C8: for positive page and limit, `getSellerReviews` returns the
window of the seller's reviews sorted by `createdAt` descending that skips
exactly `(page-1)*limit` rows and holds at most `limit` rows, together with
the total number of the seller's stored reviews and
`hasMore = total > page*limit`; the returned window is itself sorted
descending (so page 2 with limit 5 yields items 6-10 in order when they
exist). -/
theorem getSellerReviews_pagination
    (db : DB) (sid : Nat) (page limit : Int)
    (_hp : 1 ≤ page) (_hl : 1 ≤ limit) :
    ∃ res sorted,
      getSellerReviews db sid page limit = .ok res ∧
      sorted.Perm (db.reviews.filter (fun r => r.sellerId == sid)) ∧
      List.Sorted byCreatedAtDesc sorted ∧
      res.reviews = (sorted.drop ((page - 1) * limit).toNat).take limit.toNat ∧
      List.Sorted byCreatedAtDesc res.reviews ∧
      res.reviews.length ≤ limit.toNat ∧
      res.total = countSellerReviews db sid ∧
      (res.hasMore = true ↔ (res.total : Int) > page * limit) := by
  refine ⟨_, List.insertionSort byCreatedAtDesc
      (db.reviews.filter (fun r => r.sellerId == sid)),
    rfl, List.perm_insertionSort _ _, List.sorted_insertionSort _ _, rfl,
    ?_, ?_, rfl, ?_⟩
  · exact List.Pairwise.sublist
      ((List.take_sublist _ _).trans (List.drop_sublist _ _))
      (List.sorted_insertionSort _ _)
  · exact List.length_take_le _ _
  · simp

/-- Closed instance of claim C8 at the sample database: page 1 with limit 5
returns both reviews, most recent first, with no further pages. -/
theorem getSellerReviews_pagination_witness :
    (getSellerReviews wDB 10 1 5).toOption.map PagedReviews.reviews =
      some [wReview2, wReview1] := by
  obtain ⟨res, sorted, hok, -, -, hrev, -, -, -, -⟩ :=
    getSellerReviews_pagination wDB 10 1 5 (by decide) (by decide)
  have heval : getSellerReviews wDB 10 1 5 =
      .ok { reviews := [wReview2, wReview1], total := 2, hasMore := false } := rfl
  rw [heval] at hok
  injection hok with hok
  rw [heval]
  rfl

theorem applyAction_saveReview_fresh (db : DB) (r : Review)
    (hfresh : db.reviews.any (fun x => x.id == r.id) = false) :
    applyAction db (.saveReview r) =
      { db with
        reviews := db.reviews ++ [r]
        nextReviewId := db.nextReviewId + 1 } := by
  simp only [applyAction]
  rw [if_neg (by simp [hfresh])]

theorem applyAction_inc (db : DB) (sid : Nat) :
    applyAction db (.incNumReviews sid) =
      { db with sellers := db.sellers.map (fun s =>
          if s.id == sid then { s with numReviews := s.numReviews + 1 }
          else s) } := rfl

theorem applyAction_dec (db : DB) (sid : Nat) :
    applyAction db (.decNumReviews sid) =
      { db with sellers := db.sellers.map (fun s =>
          if s.id == sid then { s with numReviews := s.numReviews - 1 }
          else s) } := rfl

theorem applyAction_remove (db : DB) (i : Nat) :
    applyAction db (.removeReview i) =
      { db with reviews := db.reviews.filter (fun x => x.id ≠ i) } := rfl

theorem count_rows_append (l : List Review) (nr : Review) (X : Nat) :
    ((l ++ [nr]).filter (fun r => r.sellerId == X)).length =
      (l.filter (fun r => r.sellerId == X)).length +
        (if nr.sellerId = X then 1 else 0) := by
  by_cases hX : nr.sellerId = X <;>
    simp [List.filter_append, List.filter_singleton, hX]

theorem count_rows_remove (l : List Review) (rev : Review) (X : Nat)
    (hnd : (l.map Review.id).Nodup) (hmem : rev ∈ l) :
    ((l.filter (fun x => x.id ≠ rev.id)).filter
        (fun r => r.sellerId == X)).length +
      (if rev.sellerId = X then 1 else 0) =
      (l.filter (fun r => r.sellerId == X)).length := by
  induction l with
  | nil => cases hmem
  | cons a t ih =>
    rw [List.map_cons, List.nodup_cons] at hnd
    obtain ⟨hna, hndt⟩ := hnd
    rcases List.mem_cons.mp hmem with hEq | hmem2
    · subst hEq
      rw [List.filter_cons_of_neg (by simp)]
      have ht : t.filter (fun x => x.id ≠ rev.id) = t := by
        rw [List.filter_eq_self]
        intro x hx
        simp only [ne_eq, decide_eq_true_eq]
        intro hc
        exact hna (by rw [← hc]; exact List.mem_map_of_mem _ hx)
      rw [ht]
      by_cases hX : rev.sellerId = X
      · rw [if_pos hX, List.filter_cons_of_pos (by simp [hX]), List.length_cons]
      · rw [if_neg hX, List.filter_cons_of_neg (by simp [hX]), Nat.add_zero]
    · have hane : a.id ≠ rev.id := by
        intro hc
        exact hna (by rw [hc]; exact List.mem_map_of_mem _ hmem2)
      rw [List.filter_cons_of_pos (by simpa using hane)]
      by_cases hX : a.sellerId = X
      · rw [List.filter_cons_of_pos (by simp [hX]),
          List.filter_cons_of_pos (by simp [hX]),
          List.length_cons, List.length_cons]
        have hih := ih hndt hmem2
        by_cases hrX : rev.sellerId = X
        · rw [if_pos hrX] at hih ⊢
          omega
        · rw [if_neg hrX] at hih ⊢
          omega
      · rw [List.filter_cons_of_neg (by simp [hX]),
          List.filter_cons_of_neg (by simp [hX])]
        exact ih hndt hmem2

theorem deleteReviewActions_ok_inv {db : DB} {rid uid : Nat}
    {acts : List StoreAction}
    (h : deleteReviewActions db rid uid = .ok acts) :
    ∃ rev, findReviewById db rid = some rev ∧
      acts = [.removeReview rid, .decNumReviews rev.sellerId] := by
  unfold deleteReviewActions at h
  split at h
  · cases h
  rename_i rev hfind
  split at h
  · cases h
  simp only [Except.ok.injEq] at h
  exact ⟨rev, hfind, h.symm⟩

theorem counterInvariant_insert_inc (db : DB) (nr : Review) (sid : Nat)
    (hinv : counterInvariant db) (hsid : nr.sellerId = sid) :
    counterInvariant { db with
      reviews := db.reviews ++ [nr]
      sellers := db.sellers.map (fun s1 =>
        if s1.id == sid then { s1 with numReviews := s1.numReviews + 1 }
        else s1)
      nextReviewId := db.nextReviewId + 1 } := by
  intro s2 hs2
  obtain ⟨s1, hs1, hfs⟩ := List.mem_map.mp hs2
  have hbase := hinv s1 hs1
  unfold countSellerReviews at hbase
  by_cases hc : s1.id = sid
  · rw [if_pos (by simp [hc])] at hfs
    rw [← hfs]
    unfold countSellerReviews
    dsimp only
    rw [count_rows_append, if_pos (by rw [hsid, hc])]
    push_cast
    omega
  · rw [if_neg (by simp [hc])] at hfs
    rw [← hfs]
    unfold countSellerReviews
    dsimp only
    rw [count_rows_append, if_neg (by rw [hsid]; exact fun hcon => hc hcon.symm),
      Nat.add_zero]
    exact hbase

theorem counterInvariant_remove_dec (db : DB) (rev : Review)
    (hinv : counterInvariant db) (hnd : (db.reviews.map Review.id).Nodup)
    (hmem : rev ∈ db.reviews) :
    counterInvariant { db with
      reviews := db.reviews.filter (fun x => x.id ≠ rev.id)
      sellers := db.sellers.map (fun s1 =>
        if s1.id == rev.sellerId then { s1 with numReviews := s1.numReviews - 1 }
        else s1) } := by
  intro s2 hs2
  obtain ⟨s1, hs1, hfs⟩ := List.mem_map.mp hs2
  have hbase := hinv s1 hs1
  have hcr := count_rows_remove db.reviews rev s1.id hnd hmem
  unfold countSellerReviews at hbase
  by_cases hc : s1.id = rev.sellerId
  · rw [if_pos (by simp [hc])] at hfs
    rw [← hfs]
    unfold countSellerReviews
    dsimp only
    rw [if_pos hc.symm] at hcr
    omega
  · rw [if_neg (by simp [hc])] at hfs
    rw [← hfs]
    unfold countSellerReviews
    dsimp only
    rw [if_neg (fun hcon => hc hcon.symm), Nat.add_zero] at hcr
    rw [hcr]
    exact hbase

/-- Claim C1 (amended): starting from a well-formed store whose counters
match the stored rows, a `createReview` or `deleteReview` whose store writes
have all been applied restores the invariant — every seller's `numReviews`
equals the count of stored reviews referencing that seller.  The two writes
are, however, issued as separate store operations rather than inside one
transaction; the companion counterexample exhibits the intermediate
committed state in which the invariant is broken. -/
theorem counter_matches_review_count
    (db : DB) (hwf : DB.wf db) (hinv : counterInvariant db) :
    (∀ dto now db2 r, createReview db dto now = .ok (db2, r) →
      counterInvariant db2) ∧
    (∀ rid uid db2, deleteReview db rid uid = .ok db2 →
      counterInvariant db2) := by
  obtain ⟨hnd, hlt⟩ := hwf
  constructor
  · intro dto now db2 r h
    unfold createReview at h
    cases hact : createReviewActions db dto now with
    | error e => rw [hact] at h; cases h
    | ok p =>
      obtain ⟨acts, r0⟩ := p
      rw [hact] at h
      simp only [Except.ok.injEq, Prod.mk.injEq] at h
      obtain ⟨hdb2, -⟩ := h
      obtain ⟨s, u, -, -, -, -, hacts, -⟩ := createReviewActions_ok_inv hact
      subst hacts
      have hfresh : db.reviews.any
          (fun x => x.id == (newReview db dto now s u).id) = false := by
        rw [List.any_eq_false]
        intro x hx
        show ¬(x.id == db.nextReviewId) = true
        simp only [beq_iff_eq]
        exact Nat.ne_of_lt (hlt x hx)
      rw [← hdb2]
      simp only [runActions, List.foldl]
      rw [applyAction_saveReview_fresh db _ hfresh, applyAction_inc]
      exact counterInvariant_insert_inc db _ s.id hinv rfl
  · intro rid uid db2 h
    unfold deleteReview at h
    cases hact : deleteReviewActions db rid uid with
    | error e => rw [hact] at h; cases h
    | ok acts =>
      rw [hact] at h
      simp only [Except.ok.injEq] at h
      obtain ⟨rev, hfind, hacts⟩ := deleteReviewActions_ok_inv hact
      subst hacts
      obtain ⟨hmem, hrid⟩ := findReviewById_some hfind
      rw [← h]
      simp only [runActions, List.foldl]
      rw [applyAction_remove, applyAction_dec, ← hrid]
      exact counterInvariant_remove_dec db rev hinv hnd hmem

/-- Claim C1 counterexample: the review insert and the counter increment of
`createReview` are two separate store actions; committing only the first
leaves a durable state in which the counter no longer matches the stored
rows, so the pair does not commit together or not at all. -/
theorem counter_update_not_atomic_cex :
    counterInvariant wDB ∧
    createReviewActions wDB wDto 100 =
      .ok ([.saveReview (newReview wDB wDto 100 wSeller wBuyerUser),
            .incNumReviews 10], newReview wDB wDto 100 wSeller wBuyerUser) ∧
    ¬ counterInvariant
      (applyAction wDB
        (.saveReview (newReview wDB wDto 100 wSeller wBuyerUser))) :=
  ⟨by decide, rfl, by decide⟩

/-- Closed instance of the amended claim C1: after the sample creation
fully commits, the sample seller's counter matches its three stored
reviews. -/
theorem counter_matches_review_count_witness :
    counterInvariant wDBcreated := by
  refine (counter_matches_review_count wDB (by decide) (by decide)).1
    wDto 100 wDBcreated wNewReview ?_
  rfl
